import Mathlib

/-!
Verification of the Minesweeper knowledge-based agent (src/minesweeper.py).

The embedding below is a shallow translation of the `Sentence` and
`MinesweeperAI` classes.  Cells are pairs of integers, a sentence carries a
finite set of cells and an integer count, and the agent state carries the
played moves, the known mines, the known safes and the ordered knowledge
list.  Python's in-place mutation of the sentences shared between
`self.knowledge` and its shallow copy `new_knowledge` is modelled by keeping
the evolving base list separate from the list of freshly derived sentences
(`extra`), which never receives the mark propagations of the running pass,
exactly as the fresh Python objects appended to `new_knowledge` do not.
Python `list.remove` raising `ValueError` on an absent element is modelled
with `Option`.
-/

set_option maxRecDepth 20000

abbrev Cell : Type := ℤ × ℤ

/-- Lexicographic order on cells, used as the canonical iteration order where
Python iterates over a `set` (iteration order there is unspecified and all the
iterated operations commute). -/
def cellLe (a b : Cell) : Prop :=
  a.1 < b.1 ∨ (a.1 = b.1 ∧ a.2 ≤ b.2)

instance : DecidableRel cellLe := fun a b => by
  unfold cellLe; infer_instance

instance : IsTrans Cell cellLe where
  trans := by
    intro a b c hab hbc
    unfold cellLe at *
    rcases hab with h1 | ⟨h1, h1'⟩ <;> rcases hbc with h2 | ⟨h2, h2'⟩ <;> omega

instance : IsAntisymm Cell cellLe where
  antisymm := by
    intro a b hab hba
    unfold cellLe at *
    cases a; cases b
    simp only [Prod.mk.injEq]
    rcases hab with h1 | ⟨h1, h1'⟩ <;> rcases hba with h2 | ⟨h2, h2'⟩ <;> omega

instance : IsTotal Cell cellLe where
  total := by
    intro a b
    unfold cellLe
    omega

/-- Canonical sorted listing of a multiset of cells (insertion sort lifted to
the quotient; insertion sort is structurally recursive, so this listing
evaluates by definitional reduction). -/
def sortMultiset (m : Multiset Cell) : List Cell :=
  Quot.liftOn m (fun l => List.insertionSort cellLe l) (fun l1 l2 h =>
    List.eq_of_perm_of_sorted
      ((List.perm_insertionSort cellLe l1).trans
        (h.trans (List.perm_insertionSort cellLe l2).symm))
      (List.sorted_insertionSort cellLe l1)
      (List.sorted_insertionSort cellLe l2))

/-- Canonical listing of a finite set of cells. -/
def sortedCells (s : Finset Cell) : List Cell := sortMultiset s.val

theorem mem_sortMultiset (m : Multiset Cell) (c : Cell) :
    c ∈ sortMultiset m ↔ c ∈ m := by
  induction m using Quotient.inductionOn with
  | h l =>
    show c ∈ List.insertionSort cellLe l ↔ _
    rw [(List.perm_insertionSort cellLe l).mem_iff]
    simp

theorem mem_sortedCells (s : Finset Cell) (c : Cell) :
    c ∈ sortedCells s ↔ c ∈ s := by
  unfold sortedCells
  rw [mem_sortMultiset]
  exact Iff.rfl

/-- Logical statement about a Minesweeper game: a set of board cells and a
count of the number of those cells which are mines (class `Sentence`). -/
structure Sentence where
  cells : Finset Cell
  count : ℤ
deriving DecidableEq

/-- Sentence.known_mines: the full cell set when `count == len(cells) and
count != 0`, else the empty set. -/
def Sentence.known_mines (s : Sentence) : Finset Cell :=
  if s.count = (s.cells.card : ℤ) ∧ s.count ≠ 0 then s.cells else ∅

/-- Sentence.known_safes: the full cell set when `count == 0`, else empty. -/
def Sentence.known_safes (s : Sentence) : Finset Cell :=
  if s.count = 0 then s.cells else ∅

/-- Sentence.mark_mine: if the cell is a member, remove it and decrement the
count; no-op otherwise. -/
def Sentence.mark_mine (s : Sentence) (cell : Cell) : Sentence :=
  if cell ∈ s.cells then ⟨s.cells.erase cell, s.count - 1⟩ else s

/-- Sentence.mark_safe: if the cell is a member, remove it; count unchanged. -/
def Sentence.mark_safe (s : Sentence) (cell : Cell) : Sentence :=
  if cell ∈ s.cells then ⟨s.cells.erase cell, s.count⟩ else s

/-- State of the `MinesweeperAI` agent. -/
structure MinesweeperAI where
  height : ℕ
  width : ℕ
  moves_made : Finset Cell
  mines : Finset Cell
  safes : Finset Cell
  knowledge : List Sentence
deriving DecidableEq

/-- MinesweeperAI.__init__. -/
def MinesweeperAI.init (height width : ℕ) : MinesweeperAI :=
  ⟨height, width, ∅, ∅, ∅, []⟩

/-- MinesweeperAI.mark_mine: add the cell to `mines` and propagate
`Sentence.mark_mine` to every sentence in `knowledge`. -/
def MinesweeperAI.mark_mine (ai : MinesweeperAI) (cell : Cell) : MinesweeperAI :=
  { ai with mines := insert cell ai.mines,
            knowledge := ai.knowledge.map (fun s => s.mark_mine cell) }

/-- MinesweeperAI.mark_safe: add the cell to `safes` and propagate
`Sentence.mark_safe` to every sentence in `knowledge`. -/
def MinesweeperAI.mark_safe (ai : MinesweeperAI) (cell : Cell) : MinesweeperAI :=
  { ai with safes := insert cell ai.safes,
            knowledge := ai.knowledge.map (fun s => s.mark_safe cell) }

/-- The neighborhood list comprehension of `add_knowledge`, exactly as in the
source: the row candidates `x` are filtered by `0 <= x < self.width` and the
column candidates `y` by `0 <= y < self.height` (note the swap of `width` and
`height` relative to the roles of the coordinates). -/
def neighborhood (ai : MinesweeperAI) (cell : Cell) : List Cell :=
  (([cell.1 - 1, cell.1, cell.1 + 1]).filter
      (fun x => decide (0 ≤ x ∧ x < (ai.width : ℤ)))).flatMap
    (fun x =>
      (([cell.2 - 1, cell.2, cell.2 + 1]).filter
          (fun y => decide (0 ≤ y ∧ y < (ai.height : ℤ)))).map
        (fun y => (x, y)))

/-- Python `list.remove`: removes the first occurrence, fails (ValueError)
when the element is absent. -/
def removeFirst (l : List Cell) (c : Cell) : Option (List Cell) :=
  if c ∈ l then some (l.erase c) else none

/-- The neighborhood-parsing loop of `add_knowledge`: walk the original
neighborhood list; drop an element from the working list when it is the cell
itself or already known safe, and (independently) drop it and decrement the
count when it is a known mine.  A second removal of the same element fails,
as `list.remove` does in the source. -/
def parseNeighbors (cell : Cell) (safes mines : Finset Cell) :
    List Cell → List Cell × ℤ → Option (List Cell × ℤ)
  | [], acc => some acc
  | xy :: rest, (parsed, count) =>
      (if xy = cell ∨ xy ∈ safes then removeFirst parsed xy else some parsed).bind
        (fun parsed1 =>
          (if xy ∈ mines then
              (removeFirst parsed1 xy).map (fun p => (p, count - 1))
            else some (parsed1, count)).bind
            (fun acc1 => parseNeighbors cell safes mines rest acc1))

/-- Step 3 of `add_knowledge`: the new sentence built from the parsed
neighborhood of the freshly revealed cell (to be called on the state in which
the cell has already been recorded and marked safe). -/
def newSentence (ai : MinesweeperAI) (cell : Cell) (count : ℤ) :
    Option Sentence :=
  match parseNeighbors cell ai.safes ai.mines (neighborhood ai cell)
      (neighborhood ai cell, count) with
  | none => none
  | some (parsed, cnt) => some ⟨parsed.toFinset, cnt⟩

/-- The sentence derived by subset inference from `s1 ⊆ s2`:
`(s2.cells - s1.cells, s2.count - s1.count)`. -/
def derivedSentence (s1 s2 : Sentence) : Sentence :=
  ⟨s2.cells \ s1.cells, s2.count - s1.count⟩

/-- The inner pair loop of step 5: for each `sentence_2` in the evolving base
knowledge, skip when equal to `sentence_1`, otherwise derive the subset
sentence and append it to the accumulated fresh sentences unless an equal
sentence is already an element of the base knowledge list. -/
def pairLoop (knowledge : List Sentence) (s1 : Sentence)
    (extra : List Sentence) : List Sentence :=
  knowledge.foldl
    (fun acc s2 =>
      if s1 = s2 then acc
      else if s1.cells ⊆ s2.cells then
        (if derivedSentence s1 s2 ∈ knowledge then acc
         else acc ++ [derivedSentence s1 s2])
      else acc)
    extra

/-- Mark propagation of step 4, for one visited sentence: snapshot the known
mines and the known safes of `sentence_1`, then call the agent's `mark_mine`
for each known mine and `mark_safe` for each known safe. -/
def applyMarks (ai : MinesweeperAI) (s1 : Sentence) : MinesweeperAI :=
  (sortedCells s1.known_safes).foldl MinesweeperAI.mark_safe
    ((sortedCells s1.known_mines).foldl MinesweeperAI.mark_mine ai)

/-- One iteration of the outer loop of steps 4 and 5, at index `i` of the
base knowledge list: propagate the marks of the current `sentence_1`
(mutating the base list and the agent sets, but never the fresh sentences
accumulated in the second component), then run the pair loop with the
current value of `sentence_1`. -/
def passStep (st : MinesweeperAI × List Sentence) (i : ℕ) :
    MinesweeperAI × List Sentence :=
  (applyMarks st.1 (st.1.knowledge.getD i ⟨∅, 0⟩),
   pairLoop (applyMarks st.1 (st.1.knowledge.getD i ⟨∅, 0⟩)).knowledge
     ((applyMarks st.1 (st.1.knowledge.getD i ⟨∅, 0⟩)).knowledge.getD i ⟨∅, 0⟩)
     st.2)

/-- Steps 4 and 5 of `add_knowledge`: iterate over the (structurally fixed)
base knowledge list, then replace the knowledge with the mutated base list
followed by the freshly derived sentences, exactly as the final
`self.knowledge = new_knowledge` does for the shared sentence objects plus
the fresh ones. -/
def inferencePass (ai : MinesweeperAI) : MinesweeperAI :=
  let res := (List.range ai.knowledge.length).foldl passStep (ai, [])
  { res.1 with knowledge := res.1.knowledge ++ res.2 }

/-- MinesweeperAI.add_knowledge: record the move, mark the cell safe, build
the parsed neighborhood sentence, append it, and run the inference pass.
Returns `none` when the parsing loop attempts to remove an absent element
(the `ValueError` of `list.remove`). -/
def add_knowledge (ai : MinesweeperAI) (cell : Cell) (count : ℤ) :
    Option MinesweeperAI :=
  let ai1 := ({ ai with moves_made := insert cell ai.moves_made }).mark_safe cell
  match newSentence ai1 cell count with
  | none => none
  | some s => some (inferencePass { ai1 with knowledge := ai1.knowledge ++ [s] })

/-- A sequence of `add_knowledge` calls, aborting when one of them fails. -/
def runCalls (ai : MinesweeperAI) : List (Cell × ℤ) → Option MinesweeperAI
  | [] => some ai
  | (c, n) :: rest =>
      match add_knowledge ai c n with
      | none => none
      | some ai' => runCalls ai' rest

/-- Neighbor set as the specification words it (for comparison with the
source's `neighborhood`): all cells within Chebyshev distance 1 of the cell,
excluding the cell itself, with the row clipped to `[0, height)` and the
column clipped to `[0, width)`. -/
def specNeighborSet (height width : ℕ) (cell : Cell) : Finset Cell :=
  (([cell.1 - 1, cell.1, cell.1 + 1].flatMap
      (fun x => [cell.2 - 1, cell.2, cell.2 + 1].map (fun y => ((x, y) : Cell)))).filter
    (fun c => decide (c ≠ cell ∧ 0 ≤ c.1 ∧ c.1 < (height : ℤ) ∧
      0 ≤ c.2 ∧ c.2 < (width : ℤ)))).toFinset

/-- MinesweeperAI.make_safe_move, in state-passing form: return `None` when
`safes` is empty, otherwise the first safe cell not already played (or `None`
when the loop falls through).  The second component is the agent state after
the call; the method body contains no assignment to the agent's fields. -/
def make_safe_move (ai : MinesweeperAI) : Option Cell × MinesweeperAI :=
  if ai.safes.card = 0 then (none, ai)
  else ((sortedCells ai.safes).find? (fun c => decide (c ∉ ai.moves_made)), ai)

/-- The generator of the `good_moves` comprehension of `make_random_move`:
all `(x, y)` with `x` over `range(self.height)` and `y` over
`range(self.width)`. -/
def boardList (ai : MinesweeperAI) : List Cell :=
  (List.range ai.height).flatMap
    (fun x => (List.range ai.width).map (fun y => ((x : ℤ), (y : ℤ))))

/-- The `good_moves` list of `make_random_move`: board cells that are neither
already played nor known mines. -/
def good_moves (ai : MinesweeperAI) : List Cell :=
  (boardList ai).filter
    (fun c => decide (c ∉ ai.moves_made ∧ c ∉ ai.mines))

/-- The set of all board cells, as generated by the comprehension. -/
def boardCells (ai : MinesweeperAI) : Finset Cell := (boardList ai).toFinset

/-- MinesweeperAI.make_random_move, in state-passing form; `k` stands for the
draw of `random.choice`, which picks an element of the non-empty list
`good_moves`.  The method body contains no assignment to the agent's
fields. -/
def make_random_move (ai : MinesweeperAI) (k : ℕ) :
    Option Cell × MinesweeperAI :=
  if (good_moves ai).length = 0 then (none, ai)
  else
    (some ((good_moves ai).getD (k % (good_moves ai).length) ((0 : ℤ), (0 : ℤ))),
      ai)

/-! ### Claim C5: characterization of `Sentence.known_mines` -/

/-- Claim C5: for every sentence, `known_mines()` contains a cell exactly
when the sentence's count equals the number of its cells, the count is not
zero, and the cell belongs to the sentence; so it returns the full cell set
under that condition and the empty set otherwise. -/
theorem c5_known_mines_characterization (s : Sentence) (c : Cell) :
    c ∈ s.known_mines ↔
      s.count = (s.cells.card : ℤ) ∧ s.count ≠ 0 ∧ c ∈ s.cells := by
  unfold Sentence.known_mines
  split
  · rename_i h
    constructor
    · intro hc
      exact ⟨h.1, h.2, hc⟩
    · intro hc
      exact hc.2.2
  · rename_i h
    simp only [Finset.not_mem_empty, false_iff]
    intro hc
    exact h ⟨hc.1, hc.2.1⟩

/-! ### Claim C4: soundness of the derived sentence of subset inference -/

/-- Mine assignment `M` satisfies a sentence when exactly `count` of the
sentence's cells lie in `M`. -/
def satisfiedBy (M : Finset Cell) (s : Sentence) : Prop :=
  ((s.cells ∩ M).card : ℤ) = s.count

/-- Claim C4: when `A.cells ⊆ B.cells` and some mine assignment satisfies
both `A` and `B`, the sentence derived by subset inference,
`(B.cells - A.cells, B.count - A.count)`, satisfies the count invariant
`0 ≤ count ≤ |cells|`. -/
theorem c4_subset_inference_sound (A B : Sentence) (M : Finset Cell)
    (hsub : A.cells ⊆ B.cells) (hA : satisfiedBy M A) (hB : satisfiedBy M B) :
    0 ≤ (derivedSentence A B).count ∧
      (derivedSentence A B).count ≤ (((derivedSentence A B).cells.card : ℤ)) := by
  unfold satisfiedBy at hA hB
  show 0 ≤ B.count - A.count ∧ B.count - A.count ≤ (((B.cells \ A.cells).card : ℤ))
  have hsub' : A.cells ∩ M ⊆ B.cells ∩ M :=
    Finset.inter_subset_inter hsub (Finset.Subset.refl M)
  have hdiff : (B.cells \ A.cells) ∩ M = (B.cells ∩ M) \ (A.cells ∩ M) := by
    ext x
    simp only [Finset.mem_inter, Finset.mem_sdiff]
    tauto
  have hcard : ((B.cells \ A.cells) ∩ M).card
      = (B.cells ∩ M).card - (A.cells ∩ M).card := by
    rw [hdiff, Finset.card_sdiff hsub']
  have hle : (A.cells ∩ M).card ≤ (B.cells ∩ M).card := Finset.card_le_card hsub'
  have hle2 : ((B.cells \ A.cells) ∩ M).card ≤ (B.cells \ A.cells).card :=
    Finset.card_le_card Finset.inter_subset_left
  omega

/-- Witness for C4 at a concrete pair of satisfied sentences. -/
theorem c4_subset_inference_sound_witness :
    0 ≤ (derivedSentence ⟨{((0:ℤ),(0:ℤ))}, 1⟩
          ⟨{((0:ℤ),(0:ℤ)), ((0:ℤ),(1:ℤ))}, 1⟩).count ∧
    (derivedSentence ⟨{((0:ℤ),(0:ℤ))}, 1⟩
        ⟨{((0:ℤ),(0:ℤ)), ((0:ℤ),(1:ℤ))}, 1⟩).count ≤
      (((derivedSentence ⟨{((0:ℤ),(0:ℤ))}, 1⟩
          ⟨{((0:ℤ),(0:ℤ)), ((0:ℤ),(1:ℤ))}, 1⟩).cells.card : ℤ)) :=
  c4_subset_inference_sound _ _ {((0:ℤ),(0:ℤ))} (by decide)
    (by unfold satisfiedBy; decide) (by unfold satisfiedBy; decide)

/-! ### Claim C1: the neighborhood bounds are swapped in the source -/

/-- Claim C1 (code bug): on a board with `height = 1`, `width = 3`, playing
cell `(0,0)` with count 0 builds the new sentence from `{(1,0)}` — the code
clips the row by `width` and the column by `height` — whereas the neighbor
set described by the specification (row in `[0, height)`, column in
`[0, width)`) is `{(0,1)}`.  The state passed to `newSentence` is the one
`add_knowledge` reaches after recording the move and marking it safe. -/
theorem c1_swapped_bounds_eval :
    newSentence ⟨1, 3, {((0:ℤ),(0:ℤ))}, ∅, {((0:ℤ),(0:ℤ))}, []⟩ ((0:ℤ),(0:ℤ)) 0
      = some ⟨{((1:ℤ),(0:ℤ))}, 0⟩ ∧
    specNeighborSet 1 3 ((0:ℤ),(0:ℤ)) = {((0:ℤ),(1:ℤ))} :=
  ⟨by decide, by decide⟩

/-! ### Claim C6: the 3x3 first-move scenario -/

/-- State of the agent after the single call `add_knowledge((0,0), 0)` on a
fresh 3x3 agent. -/
def c6_st : MinesweeperAI :=
  (add_knowledge (MinesweeperAI.init 3 3) ((0:ℤ),(0:ℤ)) 0).getD
    (MinesweeperAI.init 3 3)

/-- The eight cells at Chebyshev distance 1 of `(0,0)`. -/
def chebNeighbors00 : Finset Cell :=
  {(-1,-1), (-1,0), (-1,1), (0,-1), (0,1), (1,-1), (1,0), (1,1)}

/-- Claim C6 is false as stated: after `add_knowledge((0,0), 0)` on a fresh
3x3 agent, the agent's `safes` does not contain all 8 neighbors of `(0,0)`
(the cell has only three in-bounds neighbors; the five out-of-bounds ones
are never marked). -/
theorem c6_eight_neighbors_counterexample :
    add_knowledge (MinesweeperAI.init 3 3) ((0:ℤ),(0:ℤ)) 0 = some c6_st ∧
    ¬ chebNeighbors00 ⊆ c6_st.safes :=
  ⟨rfl, by decide⟩

/-- Claim C6 amended: after `add_knowledge((0,0), 0)` on a fresh 3x3 agent,
all three in-bounds neighbors of `(0,0)` — `(0,1)`, `(1,0)`, `(1,1)` — are
in the agent's `safes` set. -/
theorem c6_inbounds_neighbors_safe_amended :
    add_knowledge (MinesweeperAI.init 3 3) ((0:ℤ),(0:ℤ)) 0 = some c6_st ∧
    ({((0:ℤ),(1:ℤ)), ((1:ℤ),(0:ℤ)), ((1:ℤ),(1:ℤ))} : Finset Cell) ⊆ c6_st.safes :=
  ⟨rfl, by decide⟩

/-! ### Claim C9: the move selectors do not modify the agent state -/

/-- Claim C9: `make_safe_move` and `make_random_move` leave the entire agent
state — `moves_made`, `safes`, `mines` and `knowledge` — unchanged. -/
theorem c9_move_selectors_pure (ai : MinesweeperAI) (k : ℕ) :
    (make_safe_move ai).2 = ai ∧ (make_random_move ai k).2 = ai := by
  constructor
  · unfold make_safe_move
    split <;> rfl
  · unfold make_random_move
    split <;> rfl

/-! ### Claim C2: duplicate sentences in the knowledge list -/

/-- State of the agent after `add_knowledge((0,0), 0)` followed by
`add_knowledge((0,1), 0)` on a fresh 3x3 agent. -/
def c2_dup_st : MinesweeperAI :=
  (runCalls (MinesweeperAI.init 3 3)
    [(((0:ℤ),(0:ℤ)), 0), (((0:ℤ),(1:ℤ)), 0)]).getD (MinesweeperAI.init 3 3)

/-- Claim C2 is false as stated: after the two calls `add_knowledge((0,0),0)`
and `add_knowledge((0,1),0)` on a fresh 3x3 agent, the knowledge list
contains two equal sentences (the empty sentence with count 0 twice): the
step-3 sentence is appended without any duplicate check. -/
theorem c2_duplicate_sentences_counterexample :
    runCalls (MinesweeperAI.init 3 3)
        [(((0:ℤ),(0:ℤ)), 0), (((0:ℤ),(1:ℤ)), 0)] = some c2_dup_st ∧
    c2_dup_st.knowledge = [⟨∅, 0⟩, ⟨∅, 0⟩] :=
  ⟨rfl, by decide⟩

theorem pairFold_mem (kn : List Sentence) (s1 : Sentence) :
    ∀ (l extra : List Sentence) (ns : Sentence),
      ns ∈ l.foldl
        (fun acc s2 =>
          if s1 = s2 then acc
          else if s1.cells ⊆ s2.cells then
            (if derivedSentence s1 s2 ∈ kn then acc
             else acc ++ [derivedSentence s1 s2])
          else acc)
        extra →
      ns ∈ extra ∨ ns ∉ kn := by
  intro l
  induction l with
  | nil =>
    intro extra ns h
    exact Or.inl h
  | cons s2 rest ih =>
    intro extra ns h
    simp only [List.foldl_cons] at h
    by_cases h1 : s1 = s2
    · rw [if_pos h1] at h
      exact ih extra ns h
    · rw [if_neg h1] at h
      by_cases h2 : s1.cells ⊆ s2.cells
      · rw [if_pos h2] at h
        by_cases h3 : derivedSentence s1 s2 ∈ kn
        · rw [if_pos h3] at h
          exact ih extra ns h
        · rw [if_neg h3] at h
          rcases ih _ ns h with hin | hnot
          · rcases List.mem_append.mp hin with ha | hb
            · exact Or.inl ha
            · rw [List.mem_singleton] at hb
              subst hb
              exact Or.inr h3
          · exact Or.inr hnot
      · rw [if_neg h2] at h
        exact ih extra ns h

/-- Claim C2 amended: a sentence derived by subset inference during a pass is
appended to the accumulated fresh sentences only when no equal sentence is an
element of the base knowledge list given to the pair loop (the snapshot of
`self.knowledge` as mutated so far); the check is not against the resulting
knowledge, so the final list may still contain equal sentences. -/
theorem c2_subset_derivation_dedup_amended (kn : List Sentence) (s1 : Sentence)
    (extra : List Sentence) (ns : Sentence) (h : ns ∈ pairLoop kn s1 extra) :
    ns ∈ extra ∨ ns ∉ kn := by
  unfold pairLoop at h
  exact pairFold_mem kn s1 kn extra ns h

/-- Witness for the amended C2 at a concrete derivation. -/
theorem c2_subset_derivation_dedup_witness :
    ((⟨{((0:ℤ),(1:ℤ))}, 0⟩ : Sentence) ∈
      pairLoop
        [⟨{((0:ℤ),(0:ℤ))}, 1⟩, ⟨{((0:ℤ),(0:ℤ)), ((0:ℤ),(1:ℤ))}, 1⟩]
        (⟨{((0:ℤ),(0:ℤ))}, 1⟩ : Sentence) []) ∧
    ((⟨{((0:ℤ),(1:ℤ))}, 0⟩ : Sentence) ∈ ([] : List Sentence) ∨
      (⟨{((0:ℤ),(1:ℤ))}, 0⟩ : Sentence) ∉
        [(⟨{((0:ℤ),(0:ℤ))}, 1⟩ : Sentence),
          ⟨{((0:ℤ),(0:ℤ)), ((0:ℤ),(1:ℤ))}, 1⟩]) :=
  ⟨by decide,
    c2_subset_derivation_dedup_amended _ (⟨{((0:ℤ),(0:ℤ))}, 1⟩ : Sentence) _ _
      (by decide)⟩

/-! ### Claim C3: monotone growth holds; disjointness does not -/

theorem mark_mine_grows (ai : MinesweeperAI) (c : Cell) :
    ai.safes ⊆ (ai.mark_mine c).safes ∧ ai.mines ⊆ (ai.mark_mine c).mines :=
  ⟨Finset.Subset.refl _, Finset.subset_insert _ _⟩

theorem mark_safe_grows (ai : MinesweeperAI) (c : Cell) :
    ai.safes ⊆ (ai.mark_safe c).safes ∧ ai.mines ⊆ (ai.mark_safe c).mines :=
  ⟨Finset.subset_insert _ _, Finset.Subset.refl _⟩

theorem foldl_grows {α : Type} (f : MinesweeperAI → α → MinesweeperAI)
    (hf : ∀ s x, s.safes ⊆ (f s x).safes ∧ s.mines ⊆ (f s x).mines) :
    ∀ (l : List α) (s : MinesweeperAI),
      s.safes ⊆ (l.foldl f s).safes ∧ s.mines ⊆ (l.foldl f s).mines := by
  intro l
  induction l with
  | nil =>
    intro s
    exact ⟨Finset.Subset.refl _, Finset.Subset.refl _⟩
  | cons x xs ih =>
    intro s
    simp only [List.foldl_cons]
    rcases hf s x with ⟨h1, h2⟩
    rcases ih (f s x) with ⟨h3, h4⟩
    exact ⟨h1.trans h3, h2.trans h4⟩

theorem applyMarks_grows (ai : MinesweeperAI) (s1 : Sentence) :
    ai.safes ⊆ (applyMarks ai s1).safes ∧ ai.mines ⊆ (applyMarks ai s1).mines := by
  unfold applyMarks
  rcases foldl_grows MinesweeperAI.mark_mine mark_mine_grows
      (sortedCells s1.known_mines) ai with ⟨h1, h2⟩
  rcases foldl_grows MinesweeperAI.mark_safe mark_safe_grows
      (sortedCells s1.known_safes)
      ((sortedCells s1.known_mines).foldl MinesweeperAI.mark_mine ai) with ⟨h3, h4⟩
  exact ⟨h1.trans h3, h2.trans h4⟩

theorem passStep_grows (st : MinesweeperAI × List Sentence) (i : ℕ) :
    st.1.safes ⊆ (passStep st i).1.safes ∧
    st.1.mines ⊆ (passStep st i).1.mines :=
  applyMarks_grows st.1 (st.1.knowledge.getD i ⟨∅, 0⟩)

theorem passFold_grows (l : List ℕ) :
    ∀ st : MinesweeperAI × List Sentence,
      st.1.safes ⊆ (l.foldl passStep st).1.safes ∧
      st.1.mines ⊆ (l.foldl passStep st).1.mines := by
  induction l with
  | nil =>
    intro st
    exact ⟨Finset.Subset.refl _, Finset.Subset.refl _⟩
  | cons i xs ih =>
    intro st
    simp only [List.foldl_cons]
    rcases passStep_grows st i with ⟨h1, h2⟩
    rcases ih (passStep st i) with ⟨h3, h4⟩
    exact ⟨h1.trans h3, h2.trans h4⟩

theorem inferencePass_grows (ai : MinesweeperAI) :
    ai.safes ⊆ (inferencePass ai).safes ∧ ai.mines ⊆ (inferencePass ai).mines :=
  passFold_grows (List.range ai.knowledge.length) (ai, [])

theorem inferencePass_grows_from (ai B : MinesweeperAI)
    (hs : ai.safes ⊆ B.safes) (hm : ai.mines ⊆ B.mines) :
    ai.safes ⊆ (inferencePass B).safes ∧ ai.mines ⊆ (inferencePass B).mines :=
  ⟨hs.trans (inferencePass_grows B).1, hm.trans (inferencePass_grows B).2⟩

theorem add_knowledge_grows {ai ai' : MinesweeperAI} {c : Cell} {n : ℤ}
    (h : add_knowledge ai c n = some ai') :
    ai.safes ⊆ ai'.safes ∧ ai.mines ⊆ ai'.mines := by
  simp only [add_knowledge] at h
  split at h
  · cases h
  · injection h with h'
    subst h'
    exact inferencePass_grows_from ai _ (Finset.subset_insert c ai.safes)
      (Finset.Subset.refl ai.mines)

/-- Claim C3 amended: across every sequence of successful `add_knowledge`
calls the `safes` and `mines` sets never lose an element; the disjointness
half of the claim does not hold (see the counterexample), because with
observation counts inconsistent with any single board the agent can mark the
same cell both safe and mine. -/
theorem c3_monotonicity_amended (calls : List (Cell × ℤ)) :
    ∀ ai ai' : MinesweeperAI, runCalls ai calls = some ai' →
      ai.safes ⊆ ai'.safes ∧ ai.mines ⊆ ai'.mines := by
  induction calls with
  | nil =>
    intro ai ai' h
    unfold runCalls at h
    injection h with h'
    subst h'
    exact ⟨Finset.Subset.refl _, Finset.Subset.refl _⟩
  | cons p rest ih =>
    intro ai ai' h
    obtain ⟨c, n⟩ := p
    unfold runCalls at h
    split at h
    · cases h
    · rename_i ai1 heq
      rcases add_knowledge_grows heq with ⟨h1, h2⟩
      rcases ih ai1 ai' h with ⟨h3, h4⟩
      exact ⟨h1.trans h3, h2.trans h4⟩

/-- State after one call `add_knowledge((0,0), 0)` on a fresh 3x3 agent. -/
def c3w_st : MinesweeperAI :=
  (runCalls (MinesweeperAI.init 3 3) [(((0:ℤ),(0:ℤ)), 0)]).getD
    (MinesweeperAI.init 3 3)

/-- Witness for the amended C3 at a concrete one-call sequence. -/
theorem c3_monotonicity_witness :
    (MinesweeperAI.init 3 3).safes ⊆ c3w_st.safes ∧
    (MinesweeperAI.init 3 3).mines ⊆ c3w_st.mines :=
  c3_monotonicity_amended [(((0:ℤ),(0:ℤ)), 0)] (MinesweeperAI.init 3 3) c3w_st
    (by decide)

/-- State after the five-call sequence used to refute the disjointness
invariant. -/
def c3_bad_st : MinesweeperAI :=
  (runCalls (MinesweeperAI.init 3 3)
    [(((2:ℤ),(2:ℤ)), 0), (((0:ℤ),(0:ℤ)), 1), (((0:ℤ),(0:ℤ)), 0),
     (((0:ℤ),(1:ℤ)), 0), (((2:ℤ),(0:ℤ)), 0)]).getD (MinesweeperAI.init 3 3)

/-- Claim C3 is false as stated: after the five (all successful) calls
`add_knowledge((2,2),0)`, `((0,0),1)`, `((0,0),0)`, `((0,1),0)`,
`((2,0),0)` on a fresh 3x3 agent, the cell `(0,2)` belongs to both `safes`
and `mines`, so `safes ∩ mines = ∅` does not hold at all times.  (A fresh
sentence derived by subset inference misses the mark propagation of the rest
of its pass, here leaving `{(0,2)} = 1` alive after `(0,2)` was marked
safe.) -/
theorem c3_disjointness_counterexample :
    runCalls (MinesweeperAI.init 3 3)
        [(((2:ℤ),(2:ℤ)), 0), (((0:ℤ),(0:ℤ)), 1), (((0:ℤ),(0:ℤ)), 0),
         (((0:ℤ),(1:ℤ)), 0), (((2:ℤ),(0:ℤ)), 0)] = some c3_bad_st ∧
    ((0:ℤ),(2:ℤ)) ∈ c3_bad_st.safes ∧ ((0:ℤ),(2:ℤ)) ∈ c3_bad_st.mines :=
  ⟨rfl, by decide, by decide⟩

/-! ### Claim C7: make_safe_move contract -/

/-- Claim C7: `make_safe_move` returns `none` exactly when every safe cell
has already been played (in particular when `safes` is empty), and any
returned cell belongs to `safes` and is not in `moves_made`. -/
theorem c7_make_safe_move_contract (ai : MinesweeperAI) :
    ((make_safe_move ai).1 = none ↔ ai.safes \ ai.moves_made = ∅) ∧
    ∀ c : Cell, (make_safe_move ai).1 = some c →
      c ∈ ai.safes ∧ c ∉ ai.moves_made := by
  unfold make_safe_move
  by_cases hc : ai.safes.card = 0
  · rw [if_pos hc]
    have h0 : ai.safes = ∅ := Finset.card_eq_zero.mp hc
    constructor
    · simp [h0]
    · intro c hcontra
      simp at hcontra
  · rw [if_neg hc]
    dsimp only
    constructor
    · rw [List.find?_eq_none, Finset.sdiff_eq_empty_iff_subset]
      constructor
      · intro hnone x hx
        have hx2 := hnone x ((mem_sortedCells ai.safes x).mpr hx)
        simpa using hx2
      · intro hsub x hx
        have hx2 : x ∈ ai.safes := (mem_sortedCells ai.safes x).mp hx
        simpa using hsub hx2
    · intro c hsome
      have h1 := List.find?_some hsome
      have h2 := List.mem_of_find?_eq_some hsome
      refine ⟨(mem_sortedCells ai.safes c).mp h2, ?_⟩
      simpa using h1

/-- Concrete agent for the C7 witness: one safe played cell and one safe
unplayed cell. -/
def c7_ai : MinesweeperAI :=
  ⟨3, 3, {((0:ℤ),(0:ℤ))}, ∅, {((0:ℤ),(0:ℤ)), ((1:ℤ),(1:ℤ))}, []⟩

/-- Witness for C7: the returned cell is safe and unplayed. -/
theorem c7_make_safe_move_contract_witness :
    ((1:ℤ),(1:ℤ)) ∈ c7_ai.safes ∧ ((1:ℤ),(1:ℤ)) ∉ c7_ai.moves_made :=
  (c7_make_safe_move_contract c7_ai).2 ((1:ℤ),(1:ℤ)) (by decide)

/-! ### Claim C8: make_random_move contract -/

theorem good_moves_mem (ai : MinesweeperAI) (c : Cell) :
    c ∈ good_moves ai ↔
      c ∈ boardCells ai ∧ c ∉ ai.moves_made ∧ c ∉ ai.mines := by
  unfold good_moves boardCells
  rw [List.mem_filter, List.mem_toFinset]
  simp only [decide_eq_true_eq]

/-- Claim C8: `make_random_move` returns `none` exactly when every board
cell is already played or a known mine, and any returned cell (for any draw
of the random choice) is a board cell that is neither played nor a known
mine; the function never fails. -/
theorem c8_make_random_move_contract (ai : MinesweeperAI) (k : ℕ) :
    ((make_random_move ai k).1 = none ↔
      boardCells ai \ (ai.moves_made ∪ ai.mines) = ∅) ∧
    ∀ c : Cell, (make_random_move ai k).1 = some c →
      c ∈ boardCells ai ∧ c ∉ ai.moves_made ∧ c ∉ ai.mines := by
  have hempty : good_moves ai = [] ↔
      boardCells ai \ (ai.moves_made ∪ ai.mines) = ∅ := by
    rw [Finset.sdiff_eq_empty_iff_subset]
    constructor
    · intro hnil x hx
      by_contra hxu
      have hxm : x ∉ ai.moves_made := fun hm => hxu (Finset.mem_union_left _ hm)
      have hxn : x ∉ ai.mines := fun hm => hxu (Finset.mem_union_right _ hm)
      have hmem : x ∈ good_moves ai := (good_moves_mem ai x).mpr ⟨hx, hxm, hxn⟩
      rw [hnil] at hmem
      simp at hmem
    · intro hsub
      by_contra hne
      rcases List.exists_mem_of_ne_nil _ hne with ⟨x, hx⟩
      rcases (good_moves_mem ai x).mp hx with ⟨hb, hm, hn⟩
      rcases Finset.mem_union.mp (hsub hb) with h1 | h2
      · exact hm h1
      · exact hn h2
  unfold make_random_move
  by_cases hlen : (good_moves ai).length = 0
  · rw [if_pos hlen]
    have hnil : good_moves ai = [] := List.length_eq_zero.mp hlen
    dsimp only
    constructor
    · simp [hempty.mp hnil]
    · intro c hcontra
      simp at hcontra
  · rw [if_neg hlen]
    dsimp only
    constructor
    · constructor
      · intro hcontra
        simp at hcontra
      · intro hemp
        exact absurd (hempty.mpr hemp) (fun hnil => hlen (by rw [hnil]; rfl))
    · intro c hsome
      injection hsome with h'
      have hlt : k % (good_moves ai).length < (good_moves ai).length :=
        Nat.mod_lt _ (Nat.pos_of_ne_zero hlen)
      have hmem :
          (good_moves ai).getD (k % (good_moves ai).length) ((0:ℤ),(0:ℤ)) ∈
            good_moves ai := by
        rw [List.getD_eq_getElem?_getD, List.getElem?_eq_getElem hlt]
        exact List.getElem_mem hlt
      rw [h'] at hmem
      exact (good_moves_mem ai c).mp hmem

/-- Concrete agent for the C8 witness on a 2x2 board: `(0,0)` played,
`(0,1)` a known mine. -/
def c8_ai : MinesweeperAI :=
  ⟨2, 2, {((0:ℤ),(0:ℤ))}, {((0:ℤ),(1:ℤ))}, ∅, []⟩

/-- Witness for C8: the returned cell is on the board, unplayed and not a
known mine. -/
theorem c8_make_random_move_contract_witness :
    ((1:ℤ),(0:ℤ)) ∈ boardCells c8_ai ∧ ((1:ℤ),(0:ℤ)) ∉ c8_ai.moves_made ∧
      ((1:ℤ),(0:ℤ)) ∉ c8_ai.mines :=
  (c8_make_random_move_contract c8_ai 0).2 ((1:ℤ),(0:ℤ)) (by decide)

/-! ### Claim C10: the parsing loop and double removal -/

theorem removeFirst_of_mem {l : List Cell} {c : Cell} (h : c ∈ l) :
    removeFirst l c = some (l.erase c) := by
  unfold removeFirst
  rw [if_pos h]

theorem triple_nodup (a : ℤ) : ([a - 1, a, a + 1] : List ℤ).Nodup := by
  refine List.nodup_cons.mpr ⟨?_, List.nodup_cons.mpr ⟨?_, List.nodup_singleton _⟩⟩
  · intro h
    rcases List.mem_cons.mp h with h1 | h1
    · omega
    · rw [List.mem_singleton] at h1
      omega
  · rw [List.mem_singleton]
    omega

theorem nodup_pairs (xs ys : List ℤ) (hxs : xs.Nodup) (hys : ys.Nodup) :
    (xs.flatMap (fun x => ys.map (fun y => ((x, y) : Cell)))).Nodup := by
  induction xs with
  | nil => simp
  | cons x tl ih =>
    rcases List.nodup_cons.mp hxs with ⟨hx, htl⟩
    rw [List.flatMap_cons, List.nodup_append]
    refine ⟨hys.map (fun a b hab => (Prod.ext_iff.mp hab).2), ih htl, ?_⟩
    intro p hp hp2
    rcases List.mem_map.mp hp with ⟨y, hy, rfl⟩
    rcases List.mem_flatMap.mp hp2 with ⟨x2, hx2, hmem⟩
    rcases List.mem_map.mp hmem with ⟨y2, hy2, heq⟩
    have hx2x : x2 = x := (Prod.ext_iff.mp heq).1
    rw [hx2x] at hx2
    exact hx hx2

theorem neighborhood_nodup (ai : MinesweeperAI) (cell : Cell) :
    (neighborhood ai cell).Nodup := by
  unfold neighborhood
  exact nodup_pairs _ _ ((triple_nodup cell.1).filter _)
    ((triple_nodup cell.2).filter _)

theorem parseNeighbors_isSome (cell : Cell) (safes mines : Finset Cell)
    (hdisj : ∀ x ∈ safes, x ∉ mines) (hcell : cell ∉ mines) :
    ∀ (rest parsed : List Cell) (count : ℤ),
      rest.Nodup → (∀ x ∈ rest, x ∈ parsed) →
      (parseNeighbors cell safes mines rest (parsed, count)).isSome := by
  intro rest
  induction rest with
  | nil =>
    intro parsed count _ _
    rfl
  | cons xy tl ih =>
    intro parsed count hnd hmem
    have hxy : xy ∈ parsed := hmem xy (List.mem_cons_self xy tl)
    rcases List.nodup_cons.mp hnd with ⟨hxytl, hnd2⟩
    unfold parseNeighbors
    by_cases h1 : xy = cell ∨ xy ∈ safes
    · have hnotmine : xy ∉ mines := by
        rcases h1 with h | h
        · rw [h]
          exact hcell
        · exact hdisj xy h
      rw [if_pos h1, removeFirst_of_mem hxy]
      simp only [Option.some_bind]
      rw [if_neg hnotmine]
      simp only [Option.some_bind]
      exact ih (parsed.erase xy) count hnd2 (fun x hx =>
        (List.mem_erase_of_ne (fun he => hxytl (by rw [← he]; exact hx))).mpr
          (hmem x (List.mem_cons_of_mem xy hx)))
    · rw [if_neg h1]
      simp only [Option.some_bind]
      by_cases h2 : xy ∈ mines
      · rw [if_pos h2, removeFirst_of_mem hxy]
        simp only [Option.map_some', Option.some_bind]
        exact ih (parsed.erase xy) (count - 1) hnd2 (fun x hx =>
          (List.mem_erase_of_ne (fun he => hxytl (by rw [← he]; exact hx))).mpr
            (hmem x (List.mem_cons_of_mem xy hx)))
      · rw [if_neg h2]
        simp only [Option.some_bind]
        exact ih parsed count hnd2 (fun x hx => hmem x (List.mem_cons_of_mem xy hx))

theorem newSentence_isSome (B : MinesweeperAI) (cell : Cell) (count : ℤ)
    (hdisj : ∀ x ∈ B.safes, x ∉ B.mines) (hcell : cell ∉ B.mines) :
    (newSentence B cell count).isSome := by
  unfold newSentence
  have hparse := parseNeighbors_isSome cell B.safes B.mines hdisj hcell
      (neighborhood B cell) (neighborhood B cell) count
      (neighborhood_nodup B cell) (fun x hx => hx)
  rcases hp : parseNeighbors cell B.safes B.mines (neighborhood B cell)
      (neighborhood B cell, count) with _ | pc
  · rw [hp] at hparse
    simp at hparse
  · rcases pc with ⟨parsed, cnt⟩
    rfl

/-- Claim C10 amended: when `safes` and `mines` are disjoint at call time and
the played cell is not itself a known mine, no element of the working
neighbor list is removed twice, so `add_knowledge` completes without
raising.  (When the played cell is in `mines`, the claim fails: the
safe-or-self branch and the mine branch both fire on the cell; see the
counterexample.) -/
theorem c10_no_double_removal_amended (ai : MinesweeperAI) (cell : Cell)
    (count : ℤ) (hdisj : ∀ x ∈ ai.safes, x ∉ ai.mines)
    (hcell : cell ∉ ai.mines) :
    (add_knowledge ai cell count).isSome := by
  have hdisj2 : ∀ x ∈
      (({ ai with moves_made := insert cell ai.moves_made }).mark_safe cell).safes,
      x ∉ (({ ai with moves_made := insert cell ai.moves_made }).mark_safe cell).mines := by
    intro x hx
    rcases Finset.mem_insert.mp hx with h | h
    · rw [h]
      exact hcell
    · exact hdisj x h
  have h2 := newSentence_isSome
      (({ ai with moves_made := insert cell ai.moves_made }).mark_safe cell)
      cell count hdisj2 hcell
  simp only [add_knowledge]
  split
  · rename_i heq
    rw [heq] at h2
    simp at h2
  · rfl

/-- State of a fresh 3x3 agent after `add_knowledge((1,1), 8)`: every
neighbor of the center is a known mine, and `safes = {(1,1)}` is disjoint
from `mines`. -/
def c10_bad_st : MinesweeperAI :=
  (add_knowledge (MinesweeperAI.init 3 3) ((1:ℤ),(1:ℤ)) 8).getD
    (MinesweeperAI.init 3 3)

/-- Claim C10 is false as stated: in the reachable state after
`add_knowledge((1,1), 8)` on a fresh 3x3 agent, `safes` and `mines` are
disjoint, yet `add_knowledge((0,0), 0)` fails — the played cell `(0,0)` is a
known mine, so the self branch and the mine branch both try to remove it and
the second `list.remove` raises. -/
theorem c10_counterexample :
    add_knowledge (MinesweeperAI.init 3 3) ((1:ℤ),(1:ℤ)) 8 = some c10_bad_st ∧
    c10_bad_st.safes ∩ c10_bad_st.mines = ∅ ∧
    add_knowledge c10_bad_st ((0:ℤ),(0:ℤ)) 0 = none :=
  ⟨rfl, by decide, by decide⟩

/-- Witness for the amended C10 in the same reachable state, playing the one
cell that is not a known mine. -/
theorem c10_no_double_removal_witness :
    (add_knowledge c10_bad_st ((1:ℤ),(1:ℤ)) 0).isSome :=
  c10_no_double_removal_amended c10_bad_st ((1:ℤ),(1:ℤ)) 0 (by decide) (by decide)
